import Mathlib

/-!
Verification development for the citibike_safety repository.

The embedding models, faithfully to the Python source:
- `haversine` (crash_data_diagnostic.py lines 11-25): great-circle distance,
  over ℝ;
- `clean_crash_data` (lines 76-195): schema normalization into a pandas
  DataFrame, column aliasing, numeric coercion, the casualty filter, the
  coordinate dropna, and the derived total-casualties column.  A DataFrame
  is modeled positionally (a list of column labels plus rows of cells), so
  duplicate column labels — which pandas permits and which the rename step
  can create — are representable.  Operations that raise in pandas
  (``pd.to_numeric`` on a duplicated label selection, ``KeyError`` on a
  missing column, the DataFrame constructor on unusable data) are modeled
  with `Except`;
- `analyze_proximity` (lines 236-282): the valid-station filter, the
  brute-force nearest-station scan, and the distance bands;
- the station inner join of citibike_diagnostic.py (lines 84-101).

JSON numbers are modeled as rationals, strings as `String`; `Prim.nan`
models the float NaN produced by ``pd.to_numeric(errors='coerce')`` and
`Prim.null` models JSON ``null`` (Python ``None``).  JSON booleans do not
occur in any field the claims touch and are omitted from the model.
-/

/-- Flat (hashable, in Python terms) JSON-ish scalar values. -/
inductive Prim where
  | num (q : ℚ)
  | str (s : String)
  | null
  | nan
  deriving DecidableEq

/-- Decoded JSON documents: scalars, sequences and mappings. -/
inductive Json where
  | prim (p : Prim)
  | arr (xs : List Json)
  | obj (kvs : List (String × Json))

/-- Association-list lookup, first match wins (Python dicts have unique
keys, so on records built from decoded JSON this is exact). -/
def alookup {κ α : Type} [DecidableEq κ] : List (κ × α) → κ → Option α
  | [], _ => none
  | (k', v) :: rest, k => if k' = k then some v else alookup rest k

/-- Python truthiness of a scalar.  Note ``bool(float('nan'))`` is `True`
in Python, and `0` and the empty string are falsy. -/
def truthyPrim : Prim → Bool
  | .num q => decide (q ≠ 0)
  | .str s => decide (s ≠ "")
  | .null => false
  | .nan => true

/-- Python truthiness of a decoded value (a list or dict is truthy iff
nonempty). -/
def truthyJson : Json → Bool
  | .prim p => truthyPrim p
  | .arr xs => !xs.isEmpty
  | .obj kvs => !kvs.isEmpty

def isObjJ : Json → Bool
  | .obj _ => true
  | _ => false

def isArrJ : Json → Bool
  | .arr _ => true
  | _ => false

def isPrimJ : Json → Bool
  | .prim _ => true
  | _ => false

def objFields : Json → List (String × Json)
  | .obj kvs => kvs
  | _ => []

def arrElems : Json → List Json
  | .arr xs => xs
  | _ => []

/-- One decimal digit. -/
def digitVal (c : Char) : Option ℕ :=
  if c.isDigit then some (c.toNat - 48) else none

def digitsVal (cs : List Char) : ℕ :=
  cs.foldl (fun a c => a * 10 + (c.toNat - 48)) 0

/-- Numeric-string parsing as performed by ``pd.to_numeric``: optional
sign, decimal digits, optional fractional part.  (Scientific notation and
``inf``/``nan`` literals, which pandas also accepts, are omitted; no claim
involves them.) -/
def parseNum (s : String) : Option ℚ :=
  let cs := s.toList
  let signed : ℚ × List Char :=
    match cs with
    | '-' :: rest => (-1, rest)
    | '+' :: rest => (1, rest)
    | _ => (1, cs)
  match signed.2.splitOn '.' with
  | [ip] =>
      if !ip.isEmpty && ip.all Char.isDigit then
        some (signed.1 * digitsVal ip)
      else none
  | [ip, fp] =>
      if (!ip.isEmpty || !fp.isEmpty) && ip.all Char.isDigit && fp.all Char.isDigit then
        some (signed.1 * ((digitsVal ip : ℚ) + (digitsVal fp : ℚ) / 10 ^ fp.length))
      else none
  | _ => none

/-- ``pd.to_numeric(·, errors='coerce')`` on one cell: numbers pass
through, numeric strings parse, everything unparseable (including ``None``
and nested lists/dicts) coerces to NaN. -/
def toNumeric : Json → Json
  | .prim (.num q) => .prim (.num q)
  | .prim (.str s) =>
      match parseNum s with
      | some q => .prim (.num q)
      | none => .prim .nan
  | .prim .null => .prim .nan
  | .prim .nan => .prim .nan
  | _ => .prim .nan

/-- The comparison ``cell > 0`` on a numerically coerced column: NaN
compares false.  (Non-numeric cells cannot occur after coercion; they also
evaluate false here.) -/
def cellGt0 : Json → Bool
  | .prim (.num q) => decide (0 < q)
  | _ => false

/-- ``pd.isna``: NaN and ``None`` are missing, numbers and strings are
not. -/
def isNA : Json → Bool
  | .prim .nan => true
  | .prim .null => true
  | _ => false

/-- Cell addition for the derived total column: after coercion the two
casualty columns hold numbers or NaN, and any sum involving NaN is NaN. -/
def cellAdd : Json → Json → Json
  | .prim (.num x), .prim (.num y) => .prim (.num (x + y))
  | _, _ => .prim .nan

/-- A pandas DataFrame, positionally: a list of column labels and rows of
cells.  Labels may repeat (pandas permits duplicate labels, and the rename
step can create them).  All constructors below keep every row as long as
`cols`. -/
structure DFrame where
  cols : List String
  rows : List (List Json)

/-- The cell of row `r` under the first column labeled `c` (pandas
``df[c]`` for a unique label). -/
def cellOf (cols : List String) (r : List Json) (c : String) : Option Json :=
  alookup (cols.zip r) c

/-- Rewrite the cells of every column labeled `c` in row `r`. -/
def mapCol (cols : List String) (r : List Json) (c : String) (f : Json → Json) :
    List Json :=
  (cols.zip r).map (fun kv => if kv.1 = c then f kv.2 else kv.2)

/-- Number of columns labeled `c`. -/
def countCol (cols : List String) (c : String) : ℕ :=
  cols.countP (fun x => x = c)

/-- Rows of an assoc-list view: used to read a frame back as records. -/
def recordsOf (df : DFrame) : List (List (String × Json)) :=
  df.rows.map (fun r => df.cols.zip r)

/-- Well-formedness the constructors maintain: each row as long as the
column list. -/
def DFwf (df : DFrame) : Prop :=
  ∀ r ∈ df.rows, r.length = df.cols.length

/-- Rewrite an explicit ``None`` cell to NaN (what pandas dtype inference
does to nulls in a column inferred numeric). -/
def coerceNullCell : Json → Json
  | .prim .null => .prim .nan
  | v => v

/-- Whether a cell is an actual number. -/
def isNumberCell : Json → Bool
  | .prim (.num _) => true
  | _ => false

/-- Whether a cell is a number, NaN, or ``None`` — the cells a numeric
(float) column can absorb. -/
def isNumericOrNACell : Json → Bool
  | .prim (.num _) => true
  | .prim .nan => true
  | .prim .null => true
  | _ => false

/-- pandas dtype inference for one column: the column becomes a float
column exactly when every cell is numeric, NaN or ``None`` and at least
one actual number occurs.  (A column holding only NA-like values, or any
string or nested value, keeps object dtype and its cells verbatim.) -/
def numericLikeColumn (cells : List Json) : Bool :=
  cells.all isNumericOrNACell && cells.any isNumberCell

/-- pandas dtype inference applied by every DataFrame constructor: in each
column inferred numeric, ``None`` cells become NaN (integers also widen to
floats there, which rational-valued cells cannot observe); all other
columns keep their cells verbatim. -/
def inferFrame (df : DFrame) : DFrame :=
  ⟨df.cols, df.rows.map (fun r =>
    List.zipWith (fun b v => if b then coerceNullCell v else v)
      ((List.range df.cols.length).map (fun i =>
        numericLikeColumn (df.rows.map (fun r => r.getD i (Json.prim .nan))))) r)⟩

/-- Insert a key keeping first-appearance order (pandas column inference
over a list of dicts). -/
def addKey (acc : List String) (k : String) : List String :=
  if acc.contains k then acc else acc ++ [k]

/-- Column labels of ``pd.DataFrame(list-of-dicts)``: keys in order of
first appearance. -/
def firstKeys (recs : List (List (String × Json))) : List String :=
  recs.foldl (fun acc r => (r.map Prod.fst).foldl addKey acc) []

/-- ``pd.DataFrame`` on a list of dicts: columns are the keys in order of
first appearance; a dict missing a column gets NaN there; dtype inference
then rewrites ``None`` to NaN in numeric columns. -/
def frameOfRecords (recs : List (List (String × Json))) : DFrame :=
  inferFrame ⟨firstKeys recs,
    recs.map (fun r => (firstKeys recs).map (fun c =>
      (alookup r c).getD (Json.prim .nan)))⟩

/-- Result of the schema-normalization step of `clean_crash_data` (lines
83-118): a DataFrame, or the reported unrecognized-schema condition (the
early ``return pd.DataFrame()``), or an exception out of the pandas
constructor. -/
inductive NormResult where
  | frame (df : DFrame)
  | unrecognized
  | raised

/-- ``pd.DataFrame(rows)`` / ``pd.DataFrame(rows, columns=names)`` on a
list of list-rows: with explicit names, uniform row lengths matching the
name count build the table (ragged rows that still fit under the widest
row are padded with ``None`` by pandas and raise only when the widths
disagree with the name count; the model conservatively treats every
length mismatch as the raising case, a corner no claim reaches); without
names, columns are synthesized positionally (pandas labels them with
integers; string numerals stand in here, and no downstream lookup
distinguishes the two) and short rows are padded with NaN.  Dtype
inference applies as in every constructor. -/
def rowsFromLists (rows : List (List Json)) (names : Option (List String)) :
    NormResult :=
  match names with
  | some ns =>
      if rows.all (fun r => r.length = ns.length) then
        .frame (inferFrame ⟨ns, rows⟩)
      else .raised
  | none =>
      let n := rows.foldl (fun m r => max m r.length) 0
      .frame (inferFrame ⟨(List.range n).map toString,
        rows.map (fun r => r ++ List.replicate (n - r.length) (Json.prim .nan))⟩)

/-- ``pd.DataFrame`` on a decoded list (lines 83-85 and the ``data``
branch): homogeneous lists of dicts become records, of scalars a single
positional column, of lists a positional table.  Mixed data is modeled as
`raised`: pandas raises on dict/non-dict mixtures, while a mixture whose
first element is a scalar becomes a single object column — a corner no
claim reaches.  Dtype inference applies as in every constructor. -/
def listToFrame (xs : List Json) : NormResult :=
  if xs.all isObjJ then .frame (frameOfRecords (xs.map objFields))
  else if xs.all isPrimJ then .frame (inferFrame ⟨["0"], xs.map (fun x => [x])⟩)
  else if xs.all isArrJ then rowsFromLists (xs.map arrElems) none
  else .raised

/-- Column names extracted from the tabular envelope (lines 98-105):
``[col['name'] for col in columns]``, with ``KeyError``/``TypeError``
caught and the names discarded.  Non-string name values, which would
become non-string labels, are not representable with string labels and
are treated as unavailable; no claim reaches them. -/
def extractNames (cs : List Json) : Option (List String) :=
  cs.mapM (fun c =>
    match c with
    | .obj f =>
        match alookup f "name" with
        | some (.prim (.str s)) => some s
        | _ => none
    | _ => none)

/-- ``pd.DataFrame(crashes['rows'], columns=column_names)`` (line 108):
list-rows are zipped with the names (or synthesized positionally);
dict-rows are reindexed by the given names.  Mixed row shapes raise. -/
def buildTabular (rs : List Json) (names : Option (List String)) : NormResult :=
  if rs.all isArrJ then rowsFromLists (rs.map arrElems) names
  else if rs.all isObjJ then
    match names with
    | none => .frame (frameOfRecords (rs.map objFields))
    | some ns =>
        .frame (inferFrame ⟨ns, rs.map (fun r => ns.map (fun c =>
          (alookup (objFields r) c).getD (Json.prim .nan)))⟩)
  else .raised

/-- Schema normalization of `clean_crash_data` (lines 83-118), branch for
branch: a list is handed to the DataFrame constructor; a dict is probed
for ``data``, then for ``columns``/``rows`` (usable only when ``rows`` is
a list), and otherwise reported as an unexpected format with an empty
result; any other type is likewise reported (lines 116-118).  A ``data``
value that is not a list reaches ``pd.DataFrame`` on a scalar or dict;
the scalar case raises, and the dict-of-columns case (which pandas would
accept) is out of the modeled scope — no claim involves a non-list
``data`` value. -/
def normalizeCrashes : Json → NormResult
  | .arr xs => listToFrame xs
  | .obj kvs =>
      if (alookup kvs "data").isSome then
        match alookup kvs "data" with
        | some (.arr ys) => listToFrame ys
        | _ => .raised
      else if (alookup kvs "columns").isSome || (alookup kvs "rows").isSome then
        match alookup kvs "rows" with
        | some (.arr rs) =>
            buildTabular rs
              (match alookup kvs "columns" with
               | some (.arr cs) => extractNames cs
               | _ => none)
        | _ => .unrecognized
      else .unrecognized
  | .prim _ => .unrecognized

/-- Errors with which the later cleaning stages abort: pandas exceptions
escaping `clean_crash_data`. -/
inductive CleanErr where
  | duplicateLabel
  | missingColumn
  | pandasRaised
  deriving DecidableEq

/-- The alias table of `clean_crash_data` (lines 121-133). -/
def columnMapping : List (String × String) :=
  [("crash_date", "date"), ("crash_time", "time"), ("latitude", "lat"),
   ("longitude", "lon"), ("number_of_cyclist_injured", "cyclists_injured"),
   ("number_of_cyclist_killed", "cyclists_killed"), ("borough", "borough"),
   ("zip_code", "zip"), ("on_street_name", "street"),
   ("cross_street_name", "cross_street"),
   ("contributing_factor_vehicle_1", "factor1")]

/-- ``df.rename(columns=rename_dict)`` (lines 136-138) where
``rename_dict`` is the alias table restricted to present columns: every
label is rewritten through the table, unconditionally — pandas does not
check whether the target label already exists, so this can create
duplicate labels. -/
def renameStep (df : DFrame) : DFrame :=
  let renameDict := columnMapping.filter (fun kv => df.cols.contains kv.1)
  ⟨df.cols.map (fun c => (alookup renameDict c).getD c), df.rows⟩

def requiredColumns : List String :=
  ["lat", "lon", "cyclists_injured", "cyclists_killed"]

/-- The first column's cells under label `c` (``df[c]`` for reading). -/
def getColVals (df : DFrame) (c : String) : List Json :=
  df.rows.map (fun r => (cellOf df.cols r c).getD (Json.prim .nan))

/-- ``df[c] = vals``: replaces the cells of existing columns labeled `c`,
or appends a new column. -/
def setCol (df : DFrame) (c : String) (vals : List Json) : DFrame :=
  if df.cols.contains c then
    ⟨df.cols, (df.rows.zip vals).map (fun rv =>
      (df.cols.zip rv.1).map (fun kv => if kv.1 = c then rv.2 else kv.2))⟩
  else
    ⟨df.cols ++ [c], (df.rows.zip vals).map (fun rv => rv.1 ++ [rv.2])⟩

/-- The alias-inference block (lines 145-163): only entered when a
required column is missing, and each alias is copied only when the
canonical name is absent and the alias present.  (After `renameStep` the
four alias names can no longer be present, so the inner branches are
unreachable; they are modeled nonetheless.) -/
def condAlias (df : DFrame) (src canon : String) : DFrame :=
  if df.cols.contains src && !df.cols.contains canon then
    setCol df canon (getColVals df src)
  else df

def inferStep (df : DFrame) : DFrame :=
  if requiredColumns.all (fun c => df.cols.contains c) then df
  else
    condAlias (condAlias (condAlias (condAlias df "latitude" "lat")
      "longitude" "lon") "number_of_cyclist_injured" "cyclists_injured")
      "number_of_cyclist_killed" "cyclists_killed"

/-- Guard shared by every stage that selects a single column: absent
labels raise ``KeyError``; a duplicated label makes ``df[col]`` a
DataFrame, on which ``pd.to_numeric`` raises ``TypeError`` (and which the
later stages cannot consume either). -/
def checkUnique (df : DFrame) (c : String) : Except CleanErr Unit :=
  match countCol df.cols c with
  | 0 => .error .missingColumn
  | 1 => .ok ()
  | _ => .error .duplicateLabel

/-- ``df[col] = pd.to_numeric(df[col], errors='coerce')`` for one column
(lines 174-176): skipped when the column is absent; raises on a
duplicated label. -/
def coerceCol (df : DFrame) (c : String) : Except CleanErr DFrame :=
  match countCol df.cols c with
  | 0 => .ok df
  | 1 => .ok ⟨df.cols, df.rows.map (fun r => mapCol df.cols r c toNumeric)⟩
  | _ => .error .duplicateLabel

/-- Numeric coercion of the four required columns, in source order. -/
def coerceStep (df : DFrame) : Except CleanErr DFrame :=
  match coerceCol df "lat" with
  | .error e => .error e
  | .ok df =>
    match coerceCol df "lon" with
    | .error e => .error e
    | .ok df =>
      match coerceCol df "cyclists_injured" with
      | .error e => .error e
      | .ok df => coerceCol df "cyclists_killed"

/-- The casualty filter (line 179): keep rows where
``cyclists_injured > 0`` or ``cyclists_killed > 0``; accessing a missing
casualty column raises ``KeyError``. -/
def casualtyFilter (df : DFrame) : Except CleanErr DFrame :=
  match checkUnique df "cyclists_injured" with
  | .error e => .error e
  | .ok _ =>
    match checkUnique df "cyclists_killed" with
    | .error e => .error e
    | .ok _ => .ok ⟨df.cols, df.rows.filter (fun r =>
        cellGt0 ((cellOf df.cols r "cyclists_injured").getD (Json.prim .nan)) ||
        cellGt0 ((cellOf df.cols r "cyclists_killed").getD (Json.prim .nan)))⟩

/-- ``df.dropna(subset=['lat', 'lon'])`` (line 182): drop rows whose
coordinate cells are missing; a missing subset label raises
``KeyError``. -/
def dropnaStep (df : DFrame) : Except CleanErr DFrame :=
  match checkUnique df "lat" with
  | .error e => .error e
  | .ok _ =>
    match checkUnique df "lon" with
    | .error e => .error e
    | .ok _ => .ok ⟨df.cols, df.rows.filter (fun r =>
        !isNA ((cellOf df.cols r "lat").getD (Json.prim .nan)) &&
        !isNA ((cellOf df.cols r "lon").getD (Json.prim .nan)))⟩

/-- ``df['total_cyclist_casualties'] = df['cyclists_injured'] +
df['cyclists_killed']`` (line 185). -/
def addTotal (df : DFrame) : Except CleanErr DFrame :=
  match checkUnique df "cyclists_injured" with
  | .error e => .error e
  | .ok _ =>
    match checkUnique df "cyclists_killed" with
    | .error e => .error e
    | .ok _ => .ok (setCol df "total_cyclist_casualties" (df.rows.map (fun r =>
        cellAdd ((cellOf df.cols r "cyclists_injured").getD (Json.prim .nan))
          ((cellOf df.cols r "cyclists_killed").getD (Json.prim .nan)))))

/-- `clean_crash_data` (lines 76-195) end to end.  An unrecognized schema
returns the empty frame early; pandas exceptions surface as errors.  The
final opportunistic date parse (lines 188-192) rewrites only the `date`
column inside a ``try/except`` and can neither raise nor change any field
a claim reads; it is modeled as the identity on the frame. -/
def cleanCrashData (j : Json) : Except CleanErr DFrame :=
  match normalizeCrashes j with
  | .unrecognized => .ok ⟨[], []⟩
  | .raised => .error .pandasRaised
  | .frame df =>
      match coerceStep (inferStep (renameStep df)) with
      | .error e => .error e
      | .ok df =>
        match casualtyFilter df with
        | .error e => .error e
        | .ok df =>
          match dropnaStep df with
          | .error e => .error e
          | .ok df => addTotal df

/-- A station record as loaded from the combined-station JSON file: one
decoded dict. -/
abbrev StationRec := List (String × Json)

/-- The valid-station predicate of `analyze_proximity` (lines 243-248):
``'lat' in s and 'lon' in s`` with both values numeric.  Python's
``isinstance(·, (int, float))`` also admits booleans and ``float('nan')``,
neither of which a coordinate field of the GBFS feeds can carry; the
model's numerics are the finite rationals. -/
def validStation (s : StationRec) : Bool :=
  (match alookup s "lat" with
   | some (.prim (.num _)) => true
   | _ => false) &&
  (match alookup s "lon" with
   | some (.prim (.num _)) => true
   | _ => false)

/-- ``valid_stations`` (lines 243-248). -/
def validStations (stations : List StationRec) : List StationRec :=
  stations.filter validStation

/-- A valid station's latitude, as a real number (only read on stations
that passed `validStation`; the fallback is never hit there). -/
def stLat (s : StationRec) : ℝ :=
  match alookup s "lat" with
  | some (.prim (.num q)) => (q : ℝ)
  | _ => 0

/-- A valid station's longitude. -/
def stLon (s : StationRec) : ℝ :=
  match alookup s "lon" with
  | some (.prim (.num q)) => (q : ℝ)
  | _ => 0

/-- `haversine` (crash_data_diagnostic.py lines 11-25): great-circle
distance via the haversine formula on a sphere of radius 6371 km,
arguments in decimal degrees in the order (lon1, lat1, lon2, lat2),
result in meters. -/
noncomputable def haversine (lon1 lat1 lon2 lat2 : ℝ) : ℝ :=
  let rlon1 := lon1 * (Real.pi / 180)
  let rlat1 := lat1 * (Real.pi / 180)
  let rlon2 := lon2 * (Real.pi / 180)
  let rlat2 := lat2 * (Real.pi / 180)
  let dlon := rlon2 - rlon1
  let dlat := rlat2 - rlat1
  let a := Real.sin (dlat / 2) ^ 2 +
    Real.cos rlat1 * Real.cos rlat2 * Real.sin (dlon / 2) ^ 2
  let c := 2 * Real.arcsin (Real.sqrt a)
  c * 6371 * 1000

/-- The inner loop of `analyze_proximity` (lines 256-262): starting from
``float('inf')``, keep the strictly smaller distance.  On the nonempty
lists the engine runs it on, the infinite start is equivalent to starting
from the first station's distance, which is how the fold is phrased here
(the `[]` case is unreachable behind the engine's emptiness guard). -/
noncomputable def nearestDist (lon lat : ℝ) : List StationRec → ℝ
  | [] => 0
  | v :: vs =>
      vs.foldl (fun closest s =>
        let d := haversine lon lat (stLon s) (stLat s)
        if d < closest then d else closest)
        (haversine lon lat (stLon v) (stLat v))

/-- The coordinate of a crash row read as a real number (``crash['lon']``
/ ``crash['lat']``; on a cleaned frame these cells are numeric). -/
def cellR (cols : List String) (r : List Json) (c : String) : ℝ :=
  match cellOf cols r c with
  | some (.prim (.num q)) => (q : ℝ)
  | _ => 0

/-- A crash frame annotated with the ``distance_to_nearest_station``
float column (line 264), kept as a parallel real-valued list alongside
the rational-valued modeled cells. -/
structure AnnotatedDF where
  base : DFrame
  dists : List ℝ
  len_eq : dists.length = base.rows.length

/-- `analyze_proximity` (lines 236-282): with no valid station the engine
reports and returns without touching the frame (modeled as `none`);
otherwise it records, for every crash row, the nearest-station distance. -/
noncomputable def analyzeProximity (df : DFrame) (stations : List StationRec) :
    Option AnnotatedDF :=
  match h : validStations stations with
  | [] => none
  | v :: vs =>
      some ⟨df,
        df.rows.map (fun r =>
          nearestDist (cellR df.cols r "lon") (cellR df.cols r "lat") (v :: vs)),
        by simp⟩

/-- ``(crashes_df['distance_to_nearest_station'] <= t).sum()`` (lines
274-280): each band is counted independently against the full distance
column. -/
noncomputable def countBand (a : AnnotatedDF) (t : ℝ) : ℕ :=
  (a.dists.filter (fun d => decide (d ≤ t))).length

/-- Errors out of the station join of citibike_diagnostic.py: a station
record without ``station_id`` (``KeyError`` on line 85) or an unhashable
identifier value (a list or dict used as a dict key, or probed with
``in``). -/
inductive JoinErr where
  | keyError
  | unhashableKey
  deriving DecidableEq

/-- Python dict insertion: an existing key keeps its position and takes
the new value. -/
def dictInsert {α : Type} (d : List (Prim × α)) (k : Prim) (v : α) :
    List (Prim × α) :=
  if (alookup d k).isSome then
    d.map (fun kv => if kv.1 = k then (k, v) else kv)
  else d ++ [(k, v)]

/-- ``station_info_dict = {station['station_id']: station for station in
info_stations}`` (line 85): later duplicates overwrite earlier ones. -/
def buildInfoDict : List StationRec → List (Prim × StationRec) →
    Except JoinErr (List (Prim × StationRec))
  | [], d => .ok d
  | st :: rest, d =>
      match alookup st "station_id" with
      | some (.prim p) => buildInfoDict rest (dictInsert d p st)
      | some _ => .error .unhashableKey
      | none => .error .keyError

/-- ``{**station_info_dict[station_id], **status}`` (line 98): the keys of
the information record in order, values overwritten by the status record
on collision, then the status record's remaining keys. -/
def mergeDicts (a b : List (String × Json)) : List (String × Json) :=
  a.map (fun kv =>
    match alookup b kv.1 with
    | some v => (kv.1, v)
    | none => kv) ++
  b.filter (fun kv => (alookup a kv.1).isNone)

/-- The combining loop (lines 93-99): for each status record, take its
``station_id`` via ``.get`` (absent → ``None`` → falsy → skipped), skip
falsy identifiers, and emit a merged record when the identifier is a key
of the information dict.  A truthy unhashable identifier raises on the
``in`` test. -/
def combineLoop (d : List (Prim × StationRec)) :
    List StationRec → Except JoinErr (List StationRec)
  | [] => .ok []
  | st :: rest =>
      match alookup st "station_id" with
      | none => combineLoop d rest
      | some j =>
          if truthyJson j then
            match j with
            | .prim p =>
                match alookup d p with
                | some inf => (combineLoop d rest).map (mergeDicts inf st :: ·)
                | none => combineLoop d rest
            | _ => .error .unhashableKey
          else combineLoop d rest

/-- The combined station dataset of `inspect_api_data` (lines 84-101). -/
def combinedStations (info status : List StationRec) :
    Except JoinErr (List StationRec) :=
  (buildInfoDict info []).bind (fun d => combineLoop d status)

/-- Whether a decoded document matches one of the schema variants as the
claim lists them: a sequence of mappings; a mapping with a ``data`` key;
a mapping with parallel ``columns`` and ``rows``.  Stated from the
claim's words, for comparison with what `normalizeCrashes` accepts. -/
def claimVariantShape (j : Json) : Bool :=
  (match j with
   | .arr xs => xs.all isObjJ
   | _ => false) ||
  (match j with
   | .obj kvs => (alookup kvs "data").isSome
   | _ => false) ||
  (match j with
   | .obj kvs => (alookup kvs "columns").isSome && (alookup kvs "rows").isSome
   | _ => false)

/-- Whether the document is a mapping carrying a ``data`` key. -/
def hasDataKey : Json → Bool
  | .obj kvs => (alookup kvs "data").isSome
  | _ => false

/-- Whether the document is a mapping whose ``rows`` key holds a
sequence. -/
def hasRowsList : Json → Bool
  | .obj kvs =>
      match alookup kvs "rows" with
      | some (.arr _) => true
      | _ => false
  | _ => false

/-- Whether the normalizer reported the unrecognized-schema condition. -/
def isUnrecognized : NormResult → Bool
  | .unrecognized => true
  | _ => false

/-- A crash record carrying both the canonical ``lat`` and the alias
``latitude`` (the alias-precedence failing input). -/
def bothLatInput : Json :=
  .arr [.obj
    [("lat", .prim (.num 2)), ("latitude", .prim (.num 1)), ("lon", .prim (.num 3)),
     ("cyclists_injured", .prim (.num 1)), ("cyclists_killed", .prim (.num 0))]]

/-- A crash record with one cyclist injured and an unparseable
``cyclists_killed`` (JSON null, which coerces to NaN). -/
def nullKilledInput : Json :=
  .arr [.obj
    [("lat", .prim (.num 1)), ("lon", .prim (.num 1)),
     ("cyclists_injured", .prim (.num 2)), ("cyclists_killed", .prim .null)]]

/-- A well-formed single-crash document: one injured, none killed. -/
def oneCrashInput : Json :=
  .arr [.obj
    [("lat", .prim (.num 1)), ("lon", .prim (.num 1)),
     ("cyclists_injured", .prim (.num 1)), ("cyclists_killed", .prim (.num 0))]]

/-- A sequence of scalars: a decoded document that is not a sequence of
mappings. -/
def scalarListInput : Json :=
  .arr [.prim (.num 1), .prim (.num 2), .prim (.num 3)]

/-- An information/status feed whose only station carries the empty-string
identifier. -/
def emptyIdFeed : List StationRec := [[("station_id", .prim (.str ""))]]

/-- Information feed for the join witness. -/
def infoFeedW : List StationRec :=
  [[("station_id", .prim (.str "a")), ("name", .prim (.str "X"))]]

/-- Status feed for the join witness. -/
def statusFeedW : List StationRec :=
  [[("station_id", .prim (.str "a")), ("bikes", .prim (.num 3))]]

/-- Information feed for the merge-semantics witness (shares the
``capacity`` field with the status feed). -/
def infoFeedM : List StationRec :=
  [[("station_id", .prim (.str "s")), ("capacity", .prim (.num 10))]]

/-- Status feed for the merge-semantics witness. -/
def statusFeedM : List StationRec :=
  [[("station_id", .prim (.str "s")), ("capacity", .prim (.num 12)),
    ("bikes", .prim (.num 3))]]

/-- A one-crash cleaned frame used by the proximity witnesses. -/
def oneCrashFrame : DFrame :=
  ⟨["lat", "lon"], [[.prim (.num 0), .prim (.num 0)]]⟩

/-- A single station at the origin. -/
def originStation : List StationRec :=
  [[("lat", .prim (.num 0)), ("lon", .prim (.num 0))]]

/-- A second one-crash frame, for the degenerate-station witness. -/
def oneCrashFrameB : DFrame :=
  ⟨["lat", "lon"], [[.prim (.num 1), .prim (.num 1)]]⟩

theorem filter_length_mono {α : Type} (l : List α) (p q : α → Bool)
    (h : ∀ x ∈ l, p x = true → q x = true) :
    (l.filter p).length ≤ (l.filter q).length := by
  rw [← List.countP_eq_length_filter, ← List.countP_eq_length_filter]
  exact List.countP_mono_left h

/-- Claim C2: the haversine function implements the great-circle formula
on a sphere of radius 6371 km returning meters, is zero on identical
points, symmetric in its two points, and maps the quarter meridian
(0,0)-(0,90) to within 1 m of 10007543 m. -/
theorem haversine_spec :
    haversine 40.7128 (-74.0060) 40.7128 (-74.0060) = 0 ∧
    (∀ a b c d : ℝ, haversine a b c d = haversine c d a b) ∧
    |haversine 0 0 0 90 - 10007543| ≤ 1 := by
  refine ⟨by simp [haversine], ?_, ?_⟩
  · intro a b c d
    have key : ∀ x y : ℝ, Real.sin ((x - y) / 2) ^ 2 = Real.sin ((y - x) / 2) ^ 2 := by
      intro x y
      rw [show (x - y) / 2 = -((y - x) / 2) by ring, Real.sin_neg, neg_sq]
    simp only [haversine]
    rw [key (d * (Real.pi / 180)) (b * (Real.pi / 180)),
      key (c * (Real.pi / 180)) (a * (Real.pi / 180)),
      mul_comm (Real.cos (b * (Real.pi / 180))) (Real.cos (d * (Real.pi / 180)))]
  · have h1 : haversine 0 0 0 90 =
        2 * Real.arcsin (Real.sqrt (Real.sin (90 * (Real.pi / 180) / 2) ^ 2)) *
          6371 * 1000 := by
      simp [haversine]
    have h2 : (90 : ℝ) * (Real.pi / 180) / 2 = Real.pi / 4 := by ring
    have h3 : Real.sqrt (Real.sin (Real.pi / 4) ^ 2) = Real.sin (Real.pi / 4) := by
      apply Real.sqrt_sq
      apply Real.sin_nonneg_of_nonneg_of_le_pi
      · positivity
      · nlinarith [Real.pi_pos]
    have h4 : Real.arcsin (Real.sin (Real.pi / 4)) = Real.pi / 4 := by
      apply Real.arcsin_sin
      · nlinarith [Real.pi_pos]
      · nlinarith [Real.pi_pos]
    rw [h1, h2, h3, h4, abs_le]
    constructor <;> nlinarith [Real.pi_gt_d20, Real.pi_lt_d20]

/-- Claim C7: with zero valid stations the proximity engine reports the
condition and returns without computing any distance or annotating any
crash record (and without raising). -/
theorem analyzeProximity_degenerate (df : DFrame) (stations : List StationRec)
    (h : validStations stations = []) :
    analyzeProximity df stations = none := by
  unfold analyzeProximity
  split
  · rfl
  · next v vs h' => rw [h] at h'; exact absurd h' (by simp)

theorem analyzeProximity_degenerate_witness :
    analyzeProximity oneCrashFrameB [] = none :=
  analyzeProximity_degenerate oneCrashFrameB [] rfl

/-- Claim C6: for every annotated crash collection the cumulative band
counts are monotone: count(≤100m) ≤ count(≤250m) ≤ count(≤500m) ≤ total
crashes; each is counted independently against the full distance list. -/
theorem countBand_monotone (a : AnnotatedDF) :
    countBand a 100 ≤ countBand a 250 ∧ countBand a 250 ≤ countBand a 500 ∧
    countBand a 500 ≤ a.base.rows.length := by
  refine ⟨?_, ?_, ?_⟩
  · apply filter_length_mono
    intro x _ hx
    simp only [decide_eq_true_eq] at hx ⊢
    linarith
  · apply filter_length_mono
    intro x _ hx
    simp only [decide_eq_true_eq] at hx ⊢
    linarith
  · calc (a.dists.filter (fun d => decide (d ≤ 500))).length
        ≤ a.dists.length := List.length_filter_le _ _
      _ = a.base.rows.length := a.len_eq

/-- Claim C8 (amended): every decoded document that is not a sequence,
not a mapping with a ``data`` key, and not a mapping whose ``rows`` key
holds a sequence, makes the normalizer yield the empty record collection
with the unrecognized-schema report, raising nothing.  (The claim as
stated fails: a sequence of non-mappings matches none of its listed
variants yet is accepted as data rows, see the counterexample.) -/
theorem normalize_unrecognized_total (j : Json) (h1 : isArrJ j = false)
    (h2 : hasDataKey j = false) (h3 : hasRowsList j = false) :
    normalizeCrashes j = .unrecognized := by
  cases j with
  | prim p => rfl
  | arr xs => simp [isArrJ] at h1
  | obj kvs =>
    simp only [hasDataKey] at h2
    simp only [hasRowsList] at h3
    simp only [normalizeCrashes]
    rw [if_neg (by simp [h2])]
    split
    · split
      · next rs heq => rw [heq] at h3; simp at h3
      · rfl
    · rfl

theorem normalize_unrecognized_total_witness :
    normalizeCrashes (.obj [("foo", .prim .null)]) = .unrecognized :=
  normalize_unrecognized_total (.obj [("foo", .prim .null)]) rfl rfl rfl

/-- Claim C8 (counterexample): a sequence of scalars matches none of the
claim's schema variants, yet the normalizer accepts it as three data rows
and does not report the unrecognized-schema condition. -/
theorem normalize_scalar_list_counterexample :
    claimVariantShape scalarListInput = false ∧
    normalizeCrashes scalarListInput =
      .frame ⟨["0"], [[.prim (.num 1)], [.prim (.num 2)], [.prim (.num 3)]]⟩ ∧
    isUnrecognized (normalizeCrashes scalarListInput) = false :=
  ⟨rfl, rfl, rfl⟩

/-- Claim C4: on a record carrying both ``lat`` and ``latitude``, the
rename step rewrites ``latitude`` to ``lat`` unconditionally, producing a
frame with two ``lat`` columns, and cleaning then aborts with the pandas
error raised by ``pd.to_numeric`` on the duplicated label — the original
``lat`` value is neither preserved nor returned.  This contradicts the
claim (and the guarded alias-inference block shows the intended
only-when-absent behavior). -/
theorem clean_both_lat_raises :
    cleanCrashData bothLatInput = .error CleanErr.duplicateLabel ∧
    (renameStep ⟨["lat", "latitude", "lon", "cyclists_injured", "cyclists_killed"],
        [[.prim (.num 2), .prim (.num 1), .prim (.num 3), .prim (.num 1),
          .prim (.num 0)]]⟩).cols =
      ["lat", "lat", "lon", "cyclists_injured", "cyclists_killed"] :=
  ⟨rfl, rfl⟩

/-- Claim C3 (counterexample): a crash with two injured and an
unparseable ``cyclists_killed`` survives cleaning, but its derived
``total_cyclist_casualties`` is NaN, which is not greater than zero. -/
theorem clean_total_nan_counterexample :
    cleanCrashData nullKilledInput = .ok
      ⟨["lat", "lon", "cyclists_injured", "cyclists_killed",
        "total_cyclist_casualties"],
       [[.prim (.num 1), .prim (.num 1), .prim (.num 2), .prim .nan, .prim .nan]]⟩ ∧
    cellGt0 ((cellOf
      ["lat", "lon", "cyclists_injured", "cyclists_killed",
       "total_cyclist_casualties"]
      [.prim (.num 1), .prim (.num 1), .prim (.num 2), .prim .nan, .prim .nan]
      "total_cyclist_casualties").getD (.prim .nan)) = false :=
  ⟨rfl, rfl⟩

/-- Claim C5 (counterexample): the empty-string identifier is present in
both feeds, yet — being falsy in Python — it is skipped by the combining
loop and produces no combined record. -/
theorem join_empty_id_counterexample :
    combinedStations emptyIdFeed emptyIdFeed = .ok [] ∧
    (∃ s ∈ emptyIdFeed, alookup s "station_id" = some (.prim (.str ""))) :=
  ⟨rfl, ⟨[("station_id", .prim (.str ""))], by simp [emptyIdFeed], rfl⟩⟩

theorem foldl_closest_spec (g : StationRec → ℝ) (l : List StationRec) (init : ℝ) :
    (l.foldl (fun closest s => if g s < closest then g s else closest) init ≤ init ∧
     ∀ s ∈ l, l.foldl (fun closest s => if g s < closest then g s else closest) init ≤ g s) ∧
    (l.foldl (fun closest s => if g s < closest then g s else closest) init = init ∨
     ∃ s ∈ l, l.foldl (fun closest s => if g s < closest then g s else closest) init = g s) := by
  induction l generalizing init with
  | nil => exact ⟨⟨le_refl _, by simp⟩, Or.inl rfl⟩
  | cons v vs ih =>
    simp only [List.foldl_cons]
    have step_le : (if g v < init then g v else init) ≤ init := by
      split
      · next hlt => exact le_of_lt hlt
      · exact le_refl _
    have step_le_g : (if g v < init then g v else init) ≤ g v := by
      split
      · exact le_refl _
      · next h => exact le_of_not_lt h
    obtain ⟨⟨h1, h2⟩, h3⟩ := ih (if g v < init then g v else init)
    refine ⟨⟨le_trans h1 step_le, ?_⟩, ?_⟩
    · intro s hs
      rcases List.mem_cons.mp hs with rfl | hs'
      · exact le_trans h1 step_le_g
      · exact h2 s hs'
    · rcases h3 with h3 | ⟨s, hs, h3⟩
      · by_cases hv : g v < init
        · rw [if_pos hv] at h3 ⊢
          exact Or.inr ⟨v, List.mem_cons_self _ _, h3⟩
        · rw [if_neg hv] at h3 ⊢
          exact Or.inl h3
      · exact Or.inr ⟨s, List.mem_cons_of_mem _ hs, h3⟩

theorem nearestDist_isLeast (lon lat : ℝ) (v : StationRec) (vs : List StationRec) :
    IsLeast {d : ℝ | ∃ s ∈ (v :: vs),
        d = haversine lon lat (stLon s) (stLat s)}
      (nearestDist lon lat (v :: vs)) := by
  have hnd : nearestDist lon lat (v :: vs) =
      vs.foldl (fun closest s =>
        if haversine lon lat (stLon s) (stLat s) < closest
        then haversine lon lat (stLon s) (stLat s) else closest)
        (haversine lon lat (stLon v) (stLat v)) := rfl
  have h := foldl_closest_spec (fun s => haversine lon lat (stLon s) (stLat s)) vs
    (haversine lon lat (stLon v) (stLat v))
  obtain ⟨⟨h1, h2⟩, h3⟩ := h
  rw [hnd]
  constructor
  · rcases h3 with h3 | ⟨s, hs, h3⟩
    · exact ⟨v, List.mem_cons_self _ _, h3⟩
    · exact ⟨s, List.mem_cons_of_mem _ hs, h3⟩
  · rintro d ⟨s, hs, rfl⟩
    rcases List.mem_cons.mp hs with rfl | hs'
    · exact h1
    · exact h2 s hs'

/-- Claim C1: whenever there is at least one valid station, the proximity
engine returns the frame annotated, for every crash row, with exactly the
minimum over all valid stations of the haversine distance between the
crash's coordinates and the station's coordinates. -/
theorem analyzeProximity_records_minimum (df : DFrame) (stations : List StationRec)
    (h : validStations stations ≠ []) :
    ∃ a : AnnotatedDF,
      analyzeProximity df stations = some a ∧ a.base = df ∧
      a.dists = df.rows.map (fun r =>
        nearestDist (cellR df.cols r "lon") (cellR df.cols r "lat")
          (validStations stations)) ∧
      ∀ r ∈ df.rows,
        IsLeast {d : ℝ | ∃ s ∈ validStations stations,
            d = haversine (cellR df.cols r "lon") (cellR df.cols r "lat")
              (stLon s) (stLat s)}
          (nearestDist (cellR df.cols r "lon") (cellR df.cols r "lat")
            (validStations stations)) := by
  unfold analyzeProximity
  split
  · next h' => exact absurd h' h
  · next v vs h' =>
    refine ⟨_, rfl, rfl, by rw [h'], ?_⟩
    intro r _
    rw [h']
    exact nearestDist_isLeast _ _ v vs

theorem analyzeProximity_records_minimum_witness :
    ∃ a : AnnotatedDF,
      analyzeProximity oneCrashFrame originStation = some a ∧
      a.base = oneCrashFrame ∧
      a.dists = oneCrashFrame.rows.map (fun r =>
        nearestDist (cellR oneCrashFrame.cols r "lon")
          (cellR oneCrashFrame.cols r "lat") (validStations originStation)) ∧
      ∀ r ∈ oneCrashFrame.rows,
        IsLeast {d : ℝ | ∃ s ∈ validStations originStation,
            d = haversine (cellR oneCrashFrame.cols r "lon")
              (cellR oneCrashFrame.cols r "lat") (stLon s) (stLat s)}
          (nearestDist (cellR oneCrashFrame.cols r "lon")
            (cellR oneCrashFrame.cols r "lat") (validStations originStation)) :=
  analyzeProximity_records_minimum oneCrashFrame originStation
    (by simp [validStations, validStation, originStation, alookup])

theorem foldl_addKey_of_mem (ks acc : List String)
    (h : ∀ k ∈ ks, k ∈ acc) : ks.foldl addKey acc = acc := by
  induction ks with
  | nil => rfl
  | cons k ks ih =>
    rw [List.foldl_cons]
    have hk : addKey acc k = acc := by
      unfold addKey
      rw [if_pos (by simpa using h k (List.mem_cons_self _ _))]
    rw [hk]
    exact ih (fun k' hk' => h k' (List.mem_cons_of_mem _ hk'))

theorem foldl_addKey_of_new (ks : List String) (acc : List String)
    (h1 : ks.Nodup) (h2 : ∀ k ∈ ks, k ∉ acc) :
    ks.foldl addKey acc = acc ++ ks := by
  induction ks generalizing acc with
  | nil => simp
  | cons k ks ih =>
    rw [List.foldl_cons]
    have hk : addKey acc k = acc ++ [k] := by
      unfold addKey
      rw [if_neg (by simpa using h2 k (List.mem_cons_self _ _))]
    have h2' : ∀ k' ∈ ks, k' ∉ acc ++ [k] := by
      intro k' hk'
      simp only [List.mem_append, List.mem_singleton]
      rintro (h | rfl)
      · exact h2 k' (List.mem_cons_of_mem _ hk') h
      · exact (List.nodup_cons.mp h1).1 hk'
    rw [hk, ih (acc ++ [k]) (List.nodup_cons.mp h1).2 h2', List.append_assoc]
    rfl

theorem firstKeys_uniform (rs : List (List (String × Json))) (cols : List String)
    (hne : rs ≠ []) (hkeys : ∀ r ∈ rs, r.map Prod.fst = cols)
    (hnodup : cols.Nodup) : firstKeys rs = cols := by
  obtain ⟨r, rest, rfl⟩ : ∃ r rest, rs = r :: rest := by
    cases rs with
    | nil => exact absurd rfl hne
    | cons r rest => exact ⟨r, rest, rfl⟩
  unfold firstKeys
  rw [List.foldl_cons, hkeys r (List.mem_cons_self _ _),
    foldl_addKey_of_new cols [] hnodup (by simp)]
  simp only [List.nil_append]
  have : ∀ (l : List (List (String × Json))), (∀ r' ∈ l, r'.map Prod.fst = cols) →
      l.foldl (fun acc r => (r.map Prod.fst).foldl addKey acc) cols = cols := by
    intro l
    induction l with
    | nil => intro _; rfl
    | cons r' l ih =>
      intro h
      rw [List.foldl_cons, h r' (List.mem_cons_self _ _),
        foldl_addKey_of_mem cols cols (fun k hk => hk)]
      exact ih (fun r'' h'' => h r'' (List.mem_cons_of_mem _ h''))
  exact this rest (fun r' h' => hkeys r' (List.mem_cons_of_mem _ h'))

theorem rebuild_row (r : List (String × Json)) (d : Json)
    (h : (r.map Prod.fst).Nodup) :
    (r.map Prod.fst).map (fun c => (alookup r c).getD d) = r.map Prod.snd := by
  induction r with
  | nil => rfl
  | cons kv r ih =>
    obtain ⟨k, v⟩ := kv
    simp only [List.map_cons, List.nodup_cons, List.mem_map] at h ⊢
    have hhead : (alookup ((k, v) :: r) k).getD d = v := by simp [alookup]
    rw [hhead]
    congr 1
    have hrw : ∀ c ∈ r.map Prod.fst,
        (alookup ((k, v) :: r) c).getD d = (alookup r c).getD d := by
      intro c hc
      have hkc : k ≠ c := by
        rintro rfl
        exact h.1 (by simpa using hc)
      simp [alookup, hkc]
    calc (r.map Prod.fst).map (fun c => (alookup ((k, v) :: r) c).getD d)
        = (r.map Prod.fst).map (fun c => (alookup r c).getD d) :=
          List.map_congr_left hrw
      _ = r.map Prod.snd := ih h.2

/-- Pandas dtype inference leaves a row unchanged when it carries no
``None`` cell (whatever the column flags say, a non-null cell is
preserved). -/
theorem zipWith_infer_id (flags : List Bool) (r : List Json)
    (hlen : r.length ≤ flags.length)
    (hv : ∀ v ∈ r, v ≠ Json.prim Prim.null) :
    List.zipWith (fun b v => if b then coerceNullCell v else v) flags r = r := by
  induction r generalizing flags with
  | nil => simp
  | cons v r ih =>
    cases flags with
    | nil => simp at hlen
    | cons b flags =>
      simp only [List.zipWith_cons_cons]
      have hcv : coerceNullCell v = v := by
        cases v with
        | prim p =>
          cases p with
          | num q => rfl
          | str t => rfl
          | null => exact absurd rfl (hv _ (List.mem_cons_self _ _))
          | nan => rfl
        | arr xs => rfl
        | obj kvs => rfl
      rw [hcv, ite_self]
      rw [ih flags (by simpa using hlen)
        (fun v' hv' => hv v' (List.mem_cons_of_mem _ hv'))]

theorem inferFrame_id_of_no_null (df : DFrame)
    (hlen : ∀ r ∈ df.rows, r.length ≤ df.cols.length)
    (hv : ∀ r ∈ df.rows, ∀ v ∈ r, v ≠ Json.prim Prim.null) :
    inferFrame df = df := by
  obtain ⟨cols, rows⟩ := df
  unfold inferFrame
  simp only
  congr 1
  calc rows.map (fun r =>
        List.zipWith (fun b v => if b then coerceNullCell v else v)
          ((List.range cols.length).map (fun i =>
            numericLikeColumn (rows.map (fun r => r.getD i (Json.prim .nan))))) r)
      = rows.map id := by
        apply List.map_congr_left
        intro r hr
        exact zipWith_infer_id _ r (by simpa using hlen r hr) (hv r hr)
    _ = rows := List.map_id rows

/-- Claim C9 (counterexample): the canonical two-record sequence
``[{"a": 1}, {"a": null}]`` is not returned unchanged — pandas dtype
inference sees a numeric column and rewrites the null to NaN, so the
second record comes back as ``{"a": NaN}``. -/
theorem normalize_null_coerced_counterexample :
    normalizeCrashes (.arr [.obj [("a", .prim (.num 1))],
        .obj [("a", .prim .null)]]) =
      .frame ⟨["a"], [[.prim (.num 1)], [.prim .nan]]⟩ ∧
    recordsOf ⟨["a"], [[.prim (.num 1)], [.prim .nan]]⟩ =
      [[("a", .prim (.num 1))], [("a", .prim .nan)]] ∧
    Json.prim Prim.nan ≠ Json.prim Prim.null :=
  ⟨rfl, rfl, fun h => Prim.noConfusion (Json.prim.inj h)⟩

/-- Claim C9 (amended): normalizing a document that is already a
canonical sequence of mappings (uniform duplicate-free field lists)
preserves record count, order and field order, and — because dtype
inference only rewrites null cells in numeric columns — returns the
records with every value preserved whenever they contain no null value.
(The claim's unconditional value preservation fails on a null in a
numeric column, see the counterexample.) -/
theorem normalize_canonical_id (rs : List (List (String × Json)))
    (cols : List String) (hne : rs ≠ [])
    (hkeys : ∀ r ∈ rs, r.map Prod.fst = cols) (hnodup : cols.Nodup)
    (hnonull : ∀ r ∈ rs, ∀ kv ∈ r, kv.2 ≠ Json.prim Prim.null) :
    normalizeCrashes (.arr (rs.map Json.obj)) =
      .frame ⟨cols, rs.map (fun r => r.map Prod.snd)⟩ ∧
    recordsOf ⟨cols, rs.map (fun r => r.map Prod.snd)⟩ = rs := by
  have hraw : (DFrame.mk cols (rs.map (fun r => cols.map (fun c =>
      (alookup r c).getD (Json.prim .nan))))) =
      ⟨cols, rs.map (fun r => r.map Prod.snd)⟩ := by
    congr 1
    apply List.map_congr_left
    intro r hr
    rw [← hkeys r hr]
    exact rebuild_row r _ (by rw [hkeys r hr]; exact hnodup)
  have hframe : frameOfRecords rs = ⟨cols, rs.map (fun r => r.map Prod.snd)⟩ := by
    unfold frameOfRecords
    rw [firstKeys_uniform rs cols hne hkeys hnodup, hraw]
    apply inferFrame_id_of_no_null
    · intro r hr
      simp only [List.mem_map] at hr
      obtain ⟨r₀, hr₀, rfl⟩ := hr
      simp [← hkeys r₀ hr₀]
    · intro r hr v hv
      simp only [List.mem_map] at hr
      obtain ⟨r₀, hr₀, rfl⟩ := hr
      simp only [List.mem_map] at hv
      obtain ⟨kv, hkv, rfl⟩ := hv
      exact hnonull r₀ hr₀ kv hkv
  constructor
  · show listToFrame (rs.map Json.obj) = _
    unfold listToFrame
    rw [if_pos (by simp [isObjJ])]
    have hobj : (rs.map Json.obj).map objFields = rs := by
      rw [List.map_map]
      have hcomp : objFields ∘ Json.obj = id := rfl
      rw [hcomp, List.map_id]
    rw [hobj, hframe]
  · unfold recordsOf
    simp only [List.map_map]
    have hzip : ∀ r ∈ rs, cols.zip (r.map Prod.snd) = r := by
      intro r hr
      rw [← hkeys r hr]
      exact (List.zip_of_prod rfl rfl).symm
    calc rs.map (fun r => cols.zip (r.map Prod.snd)) = rs.map id :=
        List.map_congr_left (by simpa using hzip)
      _ = rs := List.map_id rs

theorem normalize_canonical_id_witness :
    normalizeCrashes (.arr ([[("a", Json.prim (.num 1))],
        [("a", Json.prim (.num 2))]].map Json.obj)) =
      .frame ⟨["a"], [[("a", Json.prim (.num 1))],
        [("a", Json.prim (.num 2))]].map (fun r => r.map Prod.snd)⟩ ∧
    recordsOf ⟨["a"], [[("a", Json.prim (.num 1))],
        [("a", Json.prim (.num 2))]].map (fun r => r.map Prod.snd)⟩ =
      [[("a", Json.prim (.num 1))], [("a", Json.prim (.num 2))]] :=
  normalize_canonical_id [[("a", Json.prim (.num 1))], [("a", Json.prim (.num 2))]]
    ["a"] (by simp) (by simp) (by simp) (by simp)

theorem alookup_append {κ α : Type} [DecidableEq κ] (xs ys : List (κ × α)) (k : κ) :
    alookup (xs ++ ys) k = (alookup xs k).orElse (fun _ => alookup ys k) := by
  induction xs with
  | nil => simp [alookup, Option.orElse]
  | cons kv xs ih =>
    obtain ⟨k', v⟩ := kv
    by_cases h : k' = k
    · simp [alookup, h, Option.orElse]
    · simp only [List.cons_append, alookup, if_neg h]
      exact ih

theorem alookup_filter_congr {α : Type} (b : List (String × α))
    (p q : String × α → Bool) (k : String)
    (h : ∀ v, p (k, v) = q (k, v)) :
    alookup (b.filter p) k = alookup (b.filter q) k := by
  induction b with
  | nil => rfl
  | cons kv b ih =>
    obtain ⟨k₁, v₁⟩ := kv
    by_cases hk : k₁ = k
    · subst hk
      rw [List.filter_cons, List.filter_cons, h v₁]
      cases hq : q (k₁, v₁) with
      | true => simp [alookup]
      | false => exact ih
    · rw [List.filter_cons, List.filter_cons]
      cases hp : p (k₁, v₁) <;> cases hq : q (k₁, v₁) <;>
        simp [alookup, hk, ih]

theorem alookup_mergeDicts (a b : List (String × Json)) (k : String) :
    alookup (mergeDicts a b) k = (alookup b k).orElse (fun _ => alookup a k) := by
  induction a with
  | nil =>
    unfold mergeDicts
    simp only [List.map_nil, List.nil_append]
    have : b.filter (fun kv => (alookup ([] : List (String × Json)) kv.1).isNone) = b := by
      apply List.filter_eq_self.mpr
      intro kv _
      rfl
    rw [this]
    cases hb : alookup b k <;> simp [alookup, Option.orElse]
  | cons kv a ih =>
    obtain ⟨k₀, v₀⟩ := kv
    unfold mergeDicts
    simp only [List.map_cons, List.cons_append]
    by_cases hk : k₀ = k
    · subst hk
      cases hb : alookup b k₀ with
      | some v => simp [alookup, hb, Option.orElse]
      | none => simp [alookup, hb, Option.orElse]
    · have hstep : alookup
          ((match alookup b k₀ with
            | some v => (k₀, v)
            | none => (k₀, v₀)) ::
            (a.map (fun kv =>
              match alookup b kv.1 with
              | some v => (kv.1, v)
              | none => kv) ++
             b.filter (fun kv => (alookup ((k₀, v₀) :: a) kv.1).isNone))) k =
          alookup
            (a.map (fun kv =>
              match alookup b kv.1 with
              | some v => (kv.1, v)
              | none => kv) ++
             b.filter (fun kv => (alookup ((k₀, v₀) :: a) kv.1).isNone)) k := by
        cases hb : alookup b k₀ <;> simp [alookup, hk]
      rw [hstep, alookup_append, alookup_filter_congr _ _
        (fun kv => (alookup a kv.1).isNone) k
        (fun v => by simp [alookup, hk]), ← alookup_append]
      have hmerge : alookup (mergeDicts a b) k =
          alookup (a.map (fun kv =>
            match alookup b kv.1 with
            | some v => (kv.1, v)
            | none => kv) ++
          b.filter (fun kv => (alookup a kv.1).isNone)) k := rfl
      rw [← hmerge, ih, alookup]
      rw [if_neg hk]

theorem alookup_map_id_of_absent {α : Type} (d : List (Prim × α)) (k : Prim) (v : α)
    (h : alookup d k = none) :
    d.map (fun kv => if kv.1 = k then (k, v) else kv) = d := by
  induction d with
  | nil => rfl
  | cons kv d ih =>
    obtain ⟨k₁, v₁⟩ := kv
    simp only [alookup] at h
    by_cases hk : k₁ = k
    · rw [if_pos hk] at h
      exact Option.noConfusion h
    · rw [if_neg hk] at h
      simp only [List.map_cons, if_neg hk]
      rw [ih h]

theorem alookup_map_replace {α : Type} (d : List (Prim × α)) (k : Prim) (v : α)
    (i : Prim) (hs : (alookup d k).isSome = true) :
    alookup (d.map (fun kv => if kv.1 = k then (k, v) else kv)) i =
      if k = i then some v else alookup d i := by
  induction d with
  | nil => simp [alookup] at hs
  | cons kv d ih =>
    obtain ⟨k₁, v₁⟩ := kv
    by_cases h1 : k₁ = k
    · subst h1
      simp only [List.map_cons, if_pos rfl]
      by_cases h2 : k₁ = i
      · subst h2
        simp [alookup]
      · simp only [alookup, if_neg h2]
        by_cases hs' : (alookup d k₁).isSome = true
        · rw [ih hs']
          exact if_neg h2
        · rw [alookup_map_id_of_absent d k₁ v
            (Option.not_isSome_iff_eq_none.mp hs')]
    · simp only [alookup, if_neg h1] at hs
      simp only [List.map_cons, if_neg h1]
      by_cases h2 : k₁ = i
      · subst h2
        have hki : k ≠ k₁ := fun h => h1 h.symm
        simp [alookup, hki]
      · simp only [alookup, if_neg h2]
        rw [ih hs]

theorem alookup_dictInsert {α : Type} (d : List (Prim × α)) (k : Prim) (v : α)
    (i : Prim) :
    alookup (dictInsert d k v) i = if k = i then some v else alookup d i := by
  unfold dictInsert
  by_cases hs : (alookup d k).isSome = true
  · rw [if_pos hs]
    exact alookup_map_replace d k v i hs
  · rw [if_neg hs, alookup_append]
    by_cases hk : k = i
    · subst hk
      rw [Option.not_isSome_iff_eq_none.mp hs]
      simp [alookup, Option.orElse]
    · have : alookup [(k, v)] i = none := by simp [alookup, hk]
      rw [this, if_neg hk]
      cases hd : alookup d i <;> simp [Option.orElse]

theorem buildInfoDict_lookup (l : List StationRec) (d d' : List (Prim × StationRec))
    (h : buildInfoDict l d = .ok d') (i : Prim) :
    (alookup d' i).isSome = true ↔
      (alookup d i).isSome = true ∨
      ∃ st ∈ l, alookup st "station_id" = some (.prim i) := by
  induction l generalizing d with
  | nil =>
    simp only [buildInfoDict, Except.ok.injEq] at h
    subst h
    simp
  | cons st rest ih =>
    simp only [buildInfoDict] at h
    cases hsid : alookup st "station_id" with
    | none => rw [hsid] at h; exact Except.noConfusion h
    | some j =>
      rw [hsid] at h
      cases j with
      | prim p =>
        rw [ih (dictInsert d p st) h]
        rw [alookup_dictInsert]
        constructor
        · rintro (hl | hr)
          · by_cases hpi : p = i
            · subst hpi
              exact Or.inr ⟨st, List.mem_cons_self _ _, hsid⟩
            · rw [if_neg hpi] at hl
              exact Or.inl hl
          · obtain ⟨st', hst', hsid'⟩ := hr
            exact Or.inr ⟨st', List.mem_cons_of_mem _ hst', hsid'⟩
        · rintro (hl | ⟨st', hst', hsid'⟩)
          · by_cases hpi : p = i
            · rw [if_pos hpi]; exact Or.inl rfl
            · rw [if_neg hpi]; exact Or.inl hl
          · rcases List.mem_cons.mp hst' with rfl | hst''
            · rw [hsid] at hsid'
              have hpi : p = i := by
                have := Option.some.inj hsid'
                exact Json.prim.inj this
              rw [if_pos hpi]
              exact Or.inl rfl
            · exact Or.inr ⟨st', hst'', hsid'⟩
      | arr xs => exact Except.noConfusion h
      | obj kvs => exact Except.noConfusion h

theorem combineLoop_mem (d : List (Prim × StationRec)) (status : List StationRec)
    (out : List StationRec) (h : combineLoop d status = .ok out) (c : StationRec) :
    c ∈ out ↔ ∃ st ∈ status, ∃ p inf,
      alookup st "station_id" = some (.prim p) ∧ truthyPrim p = true ∧
      alookup d p = some inf ∧ c = mergeDicts inf st := by
  induction status generalizing out with
  | nil =>
    simp only [combineLoop, Except.ok.injEq] at h
    subst h
    simp
  | cons st rest ih =>
    simp only [combineLoop] at h
    split at h
    next hsid =>
      rw [ih out h]
      constructor
      · rintro ⟨st', hst', rest'⟩
        exact ⟨st', List.mem_cons_of_mem _ hst', rest'⟩
      · rintro ⟨st', hst', p, inf, hsid', rest'⟩
        rcases List.mem_cons.mp hst' with rfl | hst''
        · rw [hsid] at hsid'
          exact Option.noConfusion hsid'
        · exact ⟨st', hst'', p, inf, hsid', rest'⟩
    next j hsid =>
      split at h
      · next htr =>
        split at h
        · next p =>
          split at h
          · next inf hd =>
            cases hrest : combineLoop d rest with
            | error e => rw [hrest] at h; exact Except.noConfusion h
            | ok out' =>
              rw [hrest] at h
              have hout : out = mergeDicts inf st :: out' := by
                simp only [Except.map, Except.ok.injEq] at h
                exact h.symm
              subst hout
              rw [List.mem_cons, ih out' hrest]
              constructor
              · rintro (rfl | ⟨st', hst', rest'⟩)
                · refine ⟨st, List.mem_cons_self _ _, p, inf, hsid, ?_, hd, rfl⟩
                  simpa [truthyJson] using htr
                · exact ⟨st', List.mem_cons_of_mem _ hst', rest'⟩
              · rintro ⟨st', hst', p', inf', hsid', htp', hd', hc'⟩
                rcases List.mem_cons.mp hst' with rfl | hst''
                · rw [hsid] at hsid'
                  have hp : p' = p := Json.prim.inj (Option.some.inj hsid').symm
                  subst hp
                  rw [hd] at hd'
                  have hinf : inf' = inf := (Option.some.inj hd').symm
                  subst hinf
                  exact Or.inl hc'
                · exact Or.inr ⟨st', hst'', p', inf', hsid', htp', hd', hc'⟩
          · next hd =>
            rw [ih out h]
            constructor
            · rintro ⟨st', hst', rest'⟩
              exact ⟨st', List.mem_cons_of_mem _ hst', rest'⟩
            · rintro ⟨st', hst', p', inf', hsid', htp', hd', hc'⟩
              rcases List.mem_cons.mp hst' with rfl | hst''
              · rw [hsid] at hsid'
                have hp : p' = p := Json.prim.inj (Option.some.inj hsid').symm
                subst hp
                rw [hd] at hd'
                exact Option.noConfusion hd'
              · exact ⟨st', hst'', p', inf', hsid', htp', hd', hc'⟩
        · exact Except.noConfusion h
      · next htr =>
        rw [ih out h]
        constructor
        · rintro ⟨st', hst', rest'⟩
          exact ⟨st', List.mem_cons_of_mem _ hst', rest'⟩
        · rintro ⟨st', hst', p, inf, hsid', htp, rest'⟩
          rcases List.mem_cons.mp hst' with rfl | hst''
          · rw [hsid] at hsid'
            have hj : j = .prim p := Option.some.inj hsid'
            subst hj
            exact absurd (by simpa [truthyJson] using htp) htr
          · exact ⟨st', hst'', p, inf, hsid', htp, rest'⟩

/-- Claim C5 (amended): the combined station dataset contains a record
for exactly those identifiers that are truthy (in Python's sense: a
non-empty string or non-zero number) and present in both feeds; a status
record whose identifier is falsy — in particular the empty string —
produces no combined record even when the identifier appears in both
feeds. -/
theorem combined_ids_iff (info status out : List StationRec)
    (hout : combinedStations info status = .ok out) (i : Prim) :
    (∃ c ∈ out, alookup c "station_id" = some (.prim i)) ↔
      truthyPrim i = true ∧
      (∃ st ∈ status, alookup st "station_id" = some (.prim i)) ∧
      (∃ inf ∈ info, alookup inf "station_id" = some (.prim i)) := by
  unfold combinedStations at hout
  cases hbd : buildInfoDict info [] with
  | error e => rw [hbd] at hout; exact Except.noConfusion hout
  | ok d =>
    rw [hbd] at hout
    have hloop : combineLoop d status = .ok out := hout
    constructor
    · rintro ⟨c, hc, hcid⟩
      obtain ⟨st, hst, p, inf, hsid, htp, hd, rfl⟩ :=
        (combineLoop_mem d status out hloop c).mp hc
      rw [alookup_mergeDicts, hsid] at hcid
      have hpi : p = i :=
        Json.prim.inj (Option.some.inj (by simpa [Option.orElse] using hcid))
      subst hpi
      refine ⟨htp, ⟨st, hst, hsid⟩, ?_⟩
      have hS : (alookup d p).isSome = true := by rw [hd]; rfl
      rcases (buildInfoDict_lookup info [] d hbd p).mp hS with habs | hex
      · simp [alookup] at habs
      · exact hex
    · rintro ⟨htp, ⟨st, hst, hsid⟩, hinfo⟩
      have hS : (alookup d i).isSome = true :=
        (buildInfoDict_lookup info [] d hbd i).mpr (Or.inr hinfo)
      obtain ⟨inf, hd⟩ := Option.isSome_iff_exists.mp hS
      refine ⟨mergeDicts inf st, ?_, ?_⟩
      · exact (combineLoop_mem d status out hloop _).mpr
          ⟨st, hst, i, inf, hsid, htp, hd, rfl⟩
      · rw [alookup_mergeDicts, hsid]
        rfl

theorem combined_ids_iff_witness :
    (∃ c ∈ [mergeDicts [("station_id", Json.prim (.str "a")),
        ("name", Json.prim (.str "X"))]
        [("station_id", Json.prim (.str "a")), ("bikes", Json.prim (.num 3))]],
      alookup c "station_id" = some (.prim (.str "a"))) ↔
      truthyPrim (.str "a") = true ∧
      (∃ st ∈ statusFeedW, alookup st "station_id" = some (.prim (.str "a"))) ∧
      (∃ inf ∈ infoFeedW, alookup inf "station_id" = some (.prim (.str "a"))) :=
  combined_ids_iff infoFeedW statusFeedW
    [mergeDicts [("station_id", Json.prim (.str "a")), ("name", Json.prim (.str "X"))]
      [("station_id", Json.prim (.str "a")), ("bikes", Json.prim (.num 3))]]
    rfl (.str "a")

/-- Claim C10: every combined record arises from a status record whose
truthy identifier is a key of the information dict, and equals the Python
merge of the two source dicts: on every field name the status record's
value wins when both carry it, and a field unique to either source is
preserved. -/
theorem combined_merge_semantics (info status out : List StationRec)
    (hout : combinedStations info status = .ok out) (c : StationRec)
    (hc : c ∈ out) :
    ∃ st ∈ status, ∃ p inf,
      alookup st "station_id" = some (.prim p) ∧ truthyPrim p = true ∧
      (∃ d, buildInfoDict info [] = .ok d ∧ alookup d p = some inf) ∧
      c = mergeDicts inf st ∧
      ∀ k, alookup c k = (alookup st k).orElse (fun _ => alookup inf k) := by
  unfold combinedStations at hout
  cases hbd : buildInfoDict info [] with
  | error e => rw [hbd] at hout; exact Except.noConfusion hout
  | ok d =>
    rw [hbd] at hout
    have hloop : combineLoop d status = .ok out := hout
    obtain ⟨st, hst, p, inf, hsid, htp, hd, rfl⟩ :=
      (combineLoop_mem d status out hloop c).mp hc
    exact ⟨st, hst, p, inf, hsid, htp, ⟨d, rfl, hd⟩, rfl,
      fun k => alookup_mergeDicts inf st k⟩

theorem combined_merge_semantics_witness :
    ∃ st ∈ statusFeedM, ∃ p inf,
      alookup st "station_id" = some (.prim p) ∧ truthyPrim p = true ∧
      (∃ d, buildInfoDict infoFeedM [] = .ok d ∧ alookup d p = some inf) ∧
      mergeDicts [("station_id", Json.prim (.str "s")),
          ("capacity", Json.prim (.num 10))]
        [("station_id", Json.prim (.str "s")), ("capacity", Json.prim (.num 12)),
          ("bikes", Json.prim (.num 3))] = mergeDicts inf st ∧
      ∀ k, alookup (mergeDicts [("station_id", Json.prim (.str "s")),
          ("capacity", Json.prim (.num 10))]
        [("station_id", Json.prim (.str "s")), ("capacity", Json.prim (.num 12)),
          ("bikes", Json.prim (.num 3))]) k =
        (alookup st k).orElse (fun _ => alookup inf k) :=
  combined_merge_semantics infoFeedM statusFeedM
    [mergeDicts [("station_id", Json.prim (.str "s")),
        ("capacity", Json.prim (.num 10))]
      [("station_id", Json.prim (.str "s")), ("capacity", Json.prim (.num 12)),
        ("bikes", Json.prim (.num 3))]]
    rfl _ (List.mem_cons_self _ _)

theorem cellOf_mapSet (cols : List String) (r : List Json) (cNew c : String)
    (v : Json) (hne : c ≠ cNew) :
    cellOf cols ((cols.zip r).map (fun kv => if kv.1 = cNew then v else kv.2)) c =
      cellOf cols r c := by
  induction cols generalizing r with
  | nil => rfl
  | cons k cols ih =>
    cases r with
    | nil => rfl
    | cons x r =>
      simp only [cellOf, List.zip_cons_cons, List.map_cons, alookup]
      by_cases hk : k = c
      · rw [if_pos hk, if_pos hk]
        have hkn : ¬ k = cNew := by rw [hk]; exact hne
        rw [if_neg hkn]
      · rw [if_neg hk, if_neg hk]
        exact ih r

theorem cellOf_appendOne (cols : List String) (r : List Json) (cNew c : String)
    (v : Json) (hne : c ≠ cNew) (hlen : cols.length = r.length) :
    cellOf (cols ++ [cNew]) (r ++ [v]) c = cellOf cols r c := by
  unfold cellOf
  rw [List.zip_append hlen, alookup_append]
  have hcn : ¬ cNew = c := fun hx => hne hx.symm
  have hsingle : alookup ([cNew].zip [v]) c = none := by
    simp [alookup, hcn]
  rw [hsingle]
  cases hl : alookup (cols.zip r) c <;> simp [Option.orElse]

theorem wf_inferFrame (df : DFrame) (hwf : DFwf df) : DFwf (inferFrame df) := by
  intro r hr
  unfold inferFrame at hr ⊢
  simp only [List.mem_map] at hr
  obtain ⟨r₀, hr₀, rfl⟩ := hr
  simp [List.length_zipWith, hwf r₀ hr₀]

theorem wf_frameOfRecords (recs : List (List (String × Json))) :
    DFwf (frameOfRecords recs) := by
  unfold frameOfRecords
  apply wf_inferFrame
  intro r hr
  simp only [List.mem_map] at hr
  obtain ⟨rec, _, rfl⟩ := hr
  simp

theorem le_foldl_max (l : List (List Json)) (init : ℕ) :
    init ≤ l.foldl (fun m r => max m r.length) init ∧
    ∀ r ∈ l, r.length ≤ l.foldl (fun m r => max m r.length) init := by
  induction l generalizing init with
  | nil => exact ⟨le_refl _, by simp⟩
  | cons r l ih =>
    obtain ⟨h1, h2⟩ := ih (max init r.length)
    rw [List.foldl_cons]
    refine ⟨le_trans (le_max_left _ _) h1, ?_⟩
    intro r' hr'
    rcases List.mem_cons.mp hr' with rfl | hr''
    · exact le_trans (le_max_right _ _) h1
    · exact h2 r' hr''

theorem wf_rowsFromLists (rows : List (List Json)) (names : Option (List String))
    (df : DFrame) (h : rowsFromLists rows names = .frame df) : DFwf df := by
  unfold rowsFromLists at h
  split at h
  · next ns =>
    split at h
    · next hall =>
      cases h
      apply wf_inferFrame
      intro r hr
      simpa using (List.all_eq_true.mp hall r hr)
    · exact NormResult.noConfusion h
  · cases h
    apply wf_inferFrame
    intro r hr
    simp only [List.mem_map] at hr
    obtain ⟨r₀, hr₀, rfl⟩ := hr
    have hle := (le_foldl_max rows 0).2 r₀ hr₀
    simp only [List.length_append, List.length_replicate, List.length_map,
      List.length_range]
    omega

theorem wf_listToFrame (xs : List Json) (df : DFrame)
    (h : listToFrame xs = .frame df) : DFwf df := by
  unfold listToFrame at h
  split at h
  · cases h
    exact wf_frameOfRecords _
  · split at h
    · cases h
      apply wf_inferFrame
      intro r hr
      simp only [List.mem_map] at hr
      obtain ⟨x, _, rfl⟩ := hr
      rfl
    · split at h
      · exact wf_rowsFromLists _ _ _ h
      · exact NormResult.noConfusion h

theorem wf_buildTabular (rs : List Json) (names : Option (List String))
    (df : DFrame) (h : buildTabular rs names = .frame df) : DFwf df := by
  unfold buildTabular at h
  split at h
  · exact wf_rowsFromLists _ _ _ h
  · split at h
    · split at h
      · cases h
        exact wf_frameOfRecords _
      · next ns =>
        cases h
        apply wf_inferFrame
        intro r hr
        simp only [List.mem_map] at hr
        obtain ⟨x, _, rfl⟩ := hr
        simp
    · exact NormResult.noConfusion h

theorem wf_normalize (j : Json) (df : DFrame)
    (h : normalizeCrashes j = .frame df) : DFwf df := by
  cases j with
  | prim p => exact NormResult.noConfusion h
  | arr xs => exact wf_listToFrame xs df h
  | obj kvs =>
    simp only [normalizeCrashes] at h
    split at h
    · split at h
      · exact wf_listToFrame _ _ h
      · exact NormResult.noConfusion h
    · split at h
      · split at h
        · exact wf_buildTabular _ _ _ h
        · exact NormResult.noConfusion h
      · exact NormResult.noConfusion h

theorem wf_renameStep (df : DFrame) (hwf : DFwf df) : DFwf (renameStep df) := by
  intro r hr
  unfold renameStep at hr ⊢
  simp only [List.length_map]
  exact hwf r hr

theorem wf_setCol (df : DFrame) (c : String) (vals : List Json) (hwf : DFwf df) :
    DFwf (setCol df c vals) := by
  unfold setCol
  split
  · intro r hr
    simp only [List.mem_map] at hr
    obtain ⟨rv, hrv, rfl⟩ := hr
    have hmem := List.of_mem_zip hrv
    simp [hwf rv.1 hmem.1]
  · intro r hr
    simp only [List.mem_map] at hr
    obtain ⟨rv, hrv, rfl⟩ := hr
    have hmem := List.of_mem_zip hrv
    simp [hwf rv.1 hmem.1]

theorem wf_condAlias (df : DFrame) (src canon : String) (hwf : DFwf df) :
    DFwf (condAlias df src canon) := by
  unfold condAlias
  split
  · exact wf_setCol df canon _ hwf
  · exact hwf

theorem wf_inferStep (df : DFrame) (hwf : DFwf df) : DFwf (inferStep df) := by
  unfold inferStep
  split
  · exact hwf
  · exact wf_condAlias _ _ _ (wf_condAlias _ _ _ (wf_condAlias _ _ _
      (wf_condAlias _ _ _ hwf)))

theorem wf_coerceCol (df : DFrame) (c : String) (df' : DFrame)
    (h : coerceCol df c = .ok df') (hwf : DFwf df) : DFwf df' := by
  unfold coerceCol at h
  split at h
  · cases h
    exact hwf
  · cases h
    intro r hr
    simp only [List.mem_map] at hr
    obtain ⟨r₀, hr₀, rfl⟩ := hr
    unfold mapCol
    simp only [List.length_map, List.length_zip, hwf r₀ hr₀]
    simp
  · exact Except.noConfusion h

theorem wf_coerceStep (df df' : DFrame) (h : coerceStep df = .ok df')
    (hwf : DFwf df) : DFwf df' := by
  unfold coerceStep at h
  split at h
  · exact Except.noConfusion h
  · next df₁ h₁ =>
    split at h
    · exact Except.noConfusion h
    · next df₂ h₂ =>
      split at h
      · exact Except.noConfusion h
      · next df₃ h₃ =>
        exact wf_coerceCol df₃ _ df' h
          (wf_coerceCol df₂ _ df₃ h₃ (wf_coerceCol df₁ _ df₂ h₂
            (wf_coerceCol df _ df₁ h₁ hwf)))

theorem casualtyFilter_ok (df df' : DFrame) (h : casualtyFilter df = .ok df') :
    df'.cols = df.cols ∧
    df'.rows = df.rows.filter (fun r =>
      cellGt0 ((cellOf df.cols r "cyclists_injured").getD (Json.prim .nan)) ||
      cellGt0 ((cellOf df.cols r "cyclists_killed").getD (Json.prim .nan))) := by
  unfold casualtyFilter at h
  split at h
  · exact Except.noConfusion h
  · split at h
    · exact Except.noConfusion h
    · cases h
      exact ⟨rfl, rfl⟩

theorem dropnaStep_ok (df df' : DFrame) (h : dropnaStep df = .ok df') :
    df'.cols = df.cols ∧
    df'.rows = df.rows.filter (fun r =>
      !isNA ((cellOf df.cols r "lat").getD (Json.prim .nan)) &&
      !isNA ((cellOf df.cols r "lon").getD (Json.prim .nan))) := by
  unfold dropnaStep at h
  split at h
  · exact Except.noConfusion h
  · split at h
    · exact Except.noConfusion h
    · cases h
      exact ⟨rfl, rfl⟩

theorem addTotal_rows (df df' : DFrame) (h : addTotal df = .ok df')
    (hwf : DFwf df) :
    ∀ r' ∈ df'.rows, ∃ r ∈ df.rows, ∀ c, c ≠ "total_cyclist_casualties" →
      cellOf df'.cols r' c = cellOf df.cols r c := by
  unfold addTotal at h
  split at h
  · exact Except.noConfusion h
  · split at h
    · exact Except.noConfusion h
    · cases h
      unfold setCol
      split
      · intro r' hr'
        simp only [List.mem_map] at hr'
        obtain ⟨rv, hrv, rfl⟩ := hr'
        refine ⟨rv.1, (List.of_mem_zip hrv).1, ?_⟩
        intro c hc
        exact cellOf_mapSet df.cols rv.1 "total_cyclist_casualties" c rv.2 hc
      · intro r' hr'
        simp only [List.mem_map] at hr'
        obtain ⟨rv, hrv, rfl⟩ := hr'
        refine ⟨rv.1, (List.of_mem_zip hrv).1, ?_⟩
        intro c hc
        exact cellOf_appendOne df.cols rv.1 "total_cyclist_casualties" c rv.2 hc
          (hwf rv.1 (List.of_mem_zip hrv).1).symm

/-- Claim C3 (amended): every crash record retained after cleaning has
``cyclists_injured > 0`` or ``cyclists_killed > 0`` (a missing or
unparseable value fails the test).  The claim's stronger form — that the
derived sum itself is always positive — fails when exactly one casualty
field is unparseable, see the counterexample. -/
theorem clean_casualty_filter_invariant (j : Json) (df : DFrame)
    (h : cleanCrashData j = .ok df) :
    ∀ r ∈ df.rows,
      cellGt0 ((cellOf df.cols r "cyclists_injured").getD (Json.prim .nan)) = true ∨
      cellGt0 ((cellOf df.cols r "cyclists_killed").getD (Json.prim .nan)) = true := by
  unfold cleanCrashData at h
  split at h
  · cases h
    intro r hr
    exact absurd hr (List.not_mem_nil r)
  · exact Except.noConfusion h
  · next df0 hn =>
    split at h
    · exact Except.noConfusion h
    · next df2 hc =>
      split at h
      · exact Except.noConfusion h
      · next df3 hf =>
        split at h
        · exact Except.noConfusion h
        · next df4 hd =>
          have hwf2 : DFwf df2 :=
            wf_coerceStep _ _ hc
              (wf_inferStep _ (wf_renameStep _ (wf_normalize _ _ hn)))
          obtain ⟨hfc, hfr⟩ := casualtyFilter_ok df2 df3 hf
          obtain ⟨hdc, hdr⟩ := dropnaStep_ok df3 df4 hd
          have hwf3 : DFwf df3 := by
            intro r hr
            rw [hfr] at hr
            rw [hfc]
            exact hwf2 r (List.mem_of_mem_filter hr)
          have hwf4 : DFwf df4 := by
            intro r hr
            rw [hdr] at hr
            rw [hdc]
            exact hwf3 r (List.mem_of_mem_filter hr)
          intro r' hr'
          obtain ⟨r, hr, hcell⟩ := addTotal_rows df4 df h hwf4 r' hr'
          rw [hdr] at hr
          have hr3 : r ∈ df3.rows := List.mem_of_mem_filter hr
          rw [hfr] at hr3
          have hpred := List.of_mem_filter hr3
          rw [hcell "cyclists_injured" (by decide),
            hcell "cyclists_killed" (by decide), hdc, hfc]
          exact (Bool.or_eq_true _ _).mp hpred

theorem clean_casualty_filter_invariant_witness :
    cellGt0 ((cellOf
      ["lat", "lon", "cyclists_injured", "cyclists_killed",
       "total_cyclist_casualties"]
      [.prim (.num 1), .prim (.num 1), .prim (.num 1), .prim (.num 0),
       .prim (.num (1 + 0))] "cyclists_injured").getD (Json.prim .nan)) = true ∨
    cellGt0 ((cellOf
      ["lat", "lon", "cyclists_injured", "cyclists_killed",
       "total_cyclist_casualties"]
      [.prim (.num 1), .prim (.num 1), .prim (.num 1), .prim (.num 0),
       .prim (.num (1 + 0))] "cyclists_killed").getD (Json.prim .nan)) = true :=
  clean_casualty_filter_invariant oneCrashInput
    (DFrame.mk
      ["lat", "lon", "cyclists_injured", "cyclists_killed",
       "total_cyclist_casualties"]
      [[.prim (.num 1), .prim (.num 1), .prim (.num 1), .prim (.num 0),
        .prim (.num (1 + 0))]]) rfl
    [.prim (.num 1), .prim (.num 1), .prim (.num 1), .prim (.num 0),
     .prim (.num (1 + 0))] (List.mem_cons_self _ _)
